import Mathlib

/-!
Verification of the radio-telemetry drone communications package:
framing codec (`codec.py`), packet manager (`transceiver.py`) and typed
dispatch layer (`drone_comms.py`), shallowly embedded in Lean.

Bytes are modelled as `Nat` values (< 256 on real inputs); byte strings
as `List Nat`.  Machine integers are `Nat` with explicit masking where
the source masks.  Python `None` results become `Option`, raised
exceptions become `Except`.
-/

namespace DroneCommsPkg

/-! ## Byte-sequence helpers (int.to_bytes / int.from_bytes) -/

/-- Little-endian byte decomposition: `toBytesLE w v` is the list of `w`
bytes of `v`, least significant first. -/
def toBytesLE : Nat → Nat → List Nat
  | 0, _ => []
  | w + 1, v => (v % 256) :: toBytesLE w (v / 256)

/-- Little-endian byte recomposition. -/
def ofBytesLE : List Nat → Nat
  | [] => 0
  | b :: bs => b + 256 * ofBytesLE bs

/-- Big-endian variant, as used by the Python framing code
(`int.to_bytes(..., byteorder="big")`). -/
def toBytesBE (w v : Nat) : List Nat := (toBytesLE w v).reverse

/-- Big-endian recomposition (`int.from_bytes(..., "big")`). -/
def ofBytesBE (bs : List Nat) : Nat := ofBytesLE bs.reverse

theorem toBytesLE_length (w v : Nat) : (toBytesLE w v).length = w := by
  induction w generalizing v with
  | zero => rfl
  | succ w ih => simp [toBytesLE, ih]

theorem toBytesBE_length (w v : Nat) : (toBytesBE w v).length = w := by
  simp [toBytesBE, toBytesLE_length]

theorem ofBytesLE_toBytesLE (w v : Nat) :
    ofBytesLE (toBytesLE w v) = v % 256 ^ w := by
  induction w generalizing v with
  | zero => simp [toBytesLE, ofBytesLE, Nat.mod_one]
  | succ w ih =>
      simp only [toBytesLE, ofBytesLE, ih]
      rw [pow_succ', Nat.mod_mul]

theorem ofBytesBE_toBytesBE (w v : Nat) :
    ofBytesBE (toBytesBE w v) = v % 256 ^ w := by
  simp [toBytesBE, ofBytesBE, ofBytesLE_toBytesLE]

theorem ofBytesLE_toBytesLE_of_lt {w v : Nat} (h : v < 256 ^ w) :
    ofBytesLE (toBytesLE w v) = v := by
  rw [ofBytesLE_toBytesLE, Nat.mod_eq_of_lt h]

theorem ofBytesBE_toBytesBE_of_lt {w v : Nat} (h : v < 256 ^ w) :
    ofBytesBE (toBytesBE w v) = v := by
  rw [ofBytesBE_toBytesBE, Nat.mod_eq_of_lt h]

/-! ## CRC-16/CCITT-FALSE (`codec._calculate_crc16_ccitt`)

The Python source:
```
crc = 0xFFFF
poly = 0x1021
for b in data:
    crc ^= b << 8
    for _ in range(8):
        if crc & 0x8000:
            crc = (crc << 1) ^ poly
        else:
            crc <<= 1
        crc &= 0xFFFF
return crc
```
-/

/-- One iteration of the inner `for _ in range(8)` loop. -/
def crc16_round (crc : Nat) : Nat :=
  (if crc &&& 0x8000 ≠ 0 then (crc <<< 1) ^^^ 0x1021 else crc <<< 1) &&& 0xFFFF

/-- `crcRounds n c` applies `crc16_round` `n` times (the inner loop). -/
def crcRounds : Nat → Nat → Nat
  | 0, c => c
  | n + 1, c => crcRounds n (crc16_round c)

/-- Processing of one input byte: xor into the high byte, then 8 rounds. -/
def crcByte (crc b : Nat) : Nat := crcRounds 8 (crc ^^^ (b <<< 8))

/-- Translation of `codec._calculate_crc16_ccitt`. -/
def _calculate_crc16_ccitt (data : List Nat) : Nat := data.foldl crcByte 0xFFFF

theorem crc16_round_lt (c : Nat) : crc16_round c < 65536 :=
  Nat.lt_succ_of_le (Nat.and_le_right)

theorem crcRounds_lt (n : Nat) (c : Nat) (h : 0 < n) : crcRounds n c < 65536 := by
  induction n generalizing c with
  | zero => exact absurd h (Nat.lt_irrefl 0)
  | succ n ih =>
      cases n with
      | zero => exact crc16_round_lt c
      | succ m => exact ih _ (Nat.succ_pos m)

theorem crcByte_lt (crc b : Nat) : crcByte crc b < 65536 :=
  crcRounds_lt 8 _ (by decide)

theorem _calculate_crc16_ccitt_lt (data : List Nat) :
    _calculate_crc16_ccitt data < 65536 := by
  have key : ∀ (l : List Nat) (init : Nat), init < 65536 → l.foldl crcByte init < 65536 := by
    intro l
    induction l with
    | nil => intro init h; exact h
    | cons b bs ih => intro init _; exact ih (crcByte init b) (crcByte_lt init b)
  exact key data 0xFFFF (by decide)

/-- Modelled from the spec: one byte-step of CRC-16/CCITT-FALSE as §4.1
words it — "if high bit set, crc ← (crc << 1) XOR 0x1021 else crc ← crc << 1;
mask to 16 bits", iterated 8 times after "crc ← crc XOR (b << 8)". -/
def crc16_spec_step (crc : Nat) : Nat :=
  if Nat.testBit crc 15 then ((crc <<< 1) ^^^ 0x1021) % 65536
  else (crc <<< 1) % 65536

/-- Modelled from the spec: the whole CRC-16/CCITT-FALSE of §4.1
(initial value `0xFFFF`, polynomial `0x1021`, no reflection, no final XOR). -/
def crc16_ccitt_false_spec (data : List Nat) : Nat :=
  data.foldl (fun crc b => crc16_spec_step^[8] (crc ^^^ (b <<< 8))) 0xFFFF

theorem crc16_round_eq_spec_step (c : Nat) : crc16_round c = crc16_spec_step c := by
  have hbit : (c &&& 0x8000 ≠ 0) ↔ Nat.testBit c 15 = true := by
    have h : c &&& 0x8000 = (Nat.testBit c 15).toNat * 0x8000 := by
      have h2 := Nat.and_two_pow c 15
      norm_num at h2 ⊢
      exact h2
    rw [h]
    cases Nat.testBit c 15 <;> simp
  have hmask : ∀ x : Nat, x &&& 0xFFFF = x % 65536 := by
    intro x
    have := Nat.and_pow_two_sub_one_eq_mod x 16
    norm_num at this
    exact this
  rw [crc16_round, crc16_spec_step, hmask]
  by_cases hb : Nat.testBit c 15
  · rw [if_pos (hbit.mpr hb), if_pos hb]
  · rw [if_neg (fun hne => hb (hbit.mp hne)), if_neg hb]

theorem crcRounds_eq_iterate (n c : Nat) : crcRounds n c = crc16_spec_step^[n] c := by
  induction n generalizing c with
  | zero => rfl
  | succ n ih =>
      rw [crcRounds, ih, Function.iterate_succ_apply, crc16_round_eq_spec_step]

theorem crc_code_eq_spec (data : List Nat) :
    _calculate_crc16_ccitt data = crc16_ccitt_false_spec data := by
  rw [_calculate_crc16_ccitt, crc16_ccitt_false_spec]
  congr 1
  funext crc b
  exact crcRounds_eq_iterate 8 _

/-! ## Message data model (proto `RadioPacket`, §3 of the spec)

Floating-point body fields (f32/f64) are transported opaquely by the
core; they are modelled as their bit patterns (`Nat` below the width
bound), and `i32` as its 32-bit two's-complement pattern. -/

/-- Header carried by every variant (proto `BasePacket`). -/
structure BasePacket where
  packet_id : Nat
  need_ack : Bool
  timestamp : Nat
  deriving DecidableEq, Repr

/-- Body of `cfg_rqt` (proto `ConfigRequestPacket`), field order per §3. -/
structure ConfigRequestBody where
  gain : Nat
  sampling_rate : Nat
  center_frequency : Nat
  run_num : Nat
  enable_test_data : Bool
  ping_width_ms : Nat
  ping_min_snr : Nat
  ping_max_len_mult : Nat
  ping_min_len_mult : Nat
  target_frequencies : List Nat
  deriving DecidableEq, Repr

/-- Body of `gps_pkt` (proto `GPSPacket`). -/
structure GPSBody where
  easting : Nat
  northing : Nat
  altitude : Nat
  heading : Nat
  epsg_code : Nat
  deriving DecidableEq, Repr

/-- Body of `ping_pkt` (proto `PingPacket`). -/
structure PingBody where
  frequency : Nat
  amplitude : Nat
  easting : Nat
  northing : Nat
  altitude : Nat
  epsg_code : Nat
  deriving DecidableEq, Repr

/-- Body of `loc_pkt` (proto `LocEstPacket`). -/
structure LocEstBody where
  frequency : Nat
  easting : Nat
  northing : Nat
  epsg_code : Nat
  deriving DecidableEq, Repr

/-- The tagged union (proto `RadioPacket`, oneof `msg`): the thirteen
variants of §3 plus `unset`, the state of a decoded protobuf message in
which no oneof field is set (`WhichOneof` returns `None`). -/
inductive RadioPacket where
  | ack_pkt (base : BasePacket) (ack_id : Nat)
  | syn_rqt (base : BasePacket)
  | syn_rsp (base : BasePacket) (success : Bool)
  | cfg_rqt (base : BasePacket) (body : ConfigRequestBody)
  | cfg_rsp (base : BasePacket) (success : Bool)
  | gps_pkt (base : BasePacket) (body : GPSBody)
  | ping_pkt (base : BasePacket) (body : PingBody)
  | loc_pkt (base : BasePacket) (body : LocEstBody)
  | str_rqt (base : BasePacket)
  | str_rsp (base : BasePacket) (success : Bool)
  | stp_rqt (base : BasePacket)
  | stp_rsp (base : BasePacket) (success : Bool)
  | err_pkt (base : BasePacket)
  | unset
  deriving DecidableEq, Repr

/-! ## Body schema (§6.2)

Modelled from the spec: the schema-compiled protobuf serializer
(`packet.SerializeToString` / `packet.ParseFromString`, generated from
the repository's `.proto` file, which is not under `src/`) is replaced
by the §6.2 contract — "any self-describing schema encoding that
round-trips the values and variant tag exactly": a one-byte variant tag
(in the §6.2 tag order), then the header, then the body fields in the §3
order, numeric fields little-endian per §3, lists with a two-byte count.
An all-fields-unset message serializes to the empty string, as protobuf
does. -/

/-- Serialization of a Bool body field. -/
def serializeBool (b : Bool) : Nat := if b then 1 else 0

/-- Serialization of the common header (§3): packet_id u32, need_ack,
timestamp u64, little-endian. -/
def serializeBase (h : BasePacket) : List Nat :=
  toBytesLE 4 h.packet_id ++ [serializeBool h.need_ack] ++ toBytesLE 8 h.timestamp

/-- Serialization of the `cfg_rqt` body fields in §3 order. -/
def serializeConfigRequest (c : ConfigRequestBody) : List Nat :=
  toBytesLE 4 c.gain ++ toBytesLE 4 c.sampling_rate ++
  toBytesLE 4 c.center_frequency ++ toBytesLE 4 c.run_num ++
  [serializeBool c.enable_test_data] ++ toBytesLE 4 c.ping_width_ms ++
  toBytesLE 4 c.ping_min_snr ++ toBytesLE 4 c.ping_max_len_mult ++
  toBytesLE 4 c.ping_min_len_mult ++
  toBytesLE 2 c.target_frequencies.length ++
  c.target_frequencies.flatMap (toBytesLE 4)

/-- Serialization of the `gps_pkt` body fields. -/
def serializeGPS (g : GPSBody) : List Nat :=
  toBytesLE 8 g.easting ++ toBytesLE 8 g.northing ++ toBytesLE 8 g.altitude ++
  toBytesLE 8 g.heading ++ toBytesLE 4 g.epsg_code

/-- Serialization of the `ping_pkt` body fields. -/
def serializePing (p : PingBody) : List Nat :=
  toBytesLE 4 p.frequency ++ toBytesLE 8 p.amplitude ++ toBytesLE 8 p.easting ++
  toBytesLE 8 p.northing ++ toBytesLE 8 p.altitude ++ toBytesLE 4 p.epsg_code

/-- Serialization of the `loc_pkt` body fields. -/
def serializeLocEst (l : LocEstBody) : List Nat :=
  toBytesLE 4 l.frequency ++ toBytesLE 8 l.easting ++ toBytesLE 8 l.northing ++
  toBytesLE 4 l.epsg_code

/-- Modelled from the spec: `RadioPacket.SerializeToString`, the
self-delimiting body serialization of §6.2 (tag order `ack_pkt`,
`syn_rqt`, `syn_rsp`, `cfg_rqt`, `cfg_rsp`, `gps_pkt`, `ping_pkt`,
`loc_pkt`, `str_rqt`, `str_rsp`, `stp_rqt`, `stp_rsp`, `err_pkt`). -/
def serializeToString : RadioPacket → List Nat
  | .ack_pkt b a => 1 :: (serializeBase b ++ toBytesLE 4 a)
  | .syn_rqt b => 2 :: serializeBase b
  | .syn_rsp b s => 3 :: (serializeBase b ++ [serializeBool s])
  | .cfg_rqt b c => 4 :: (serializeBase b ++ serializeConfigRequest c)
  | .cfg_rsp b s => 5 :: (serializeBase b ++ [serializeBool s])
  | .gps_pkt b g => 6 :: (serializeBase b ++ serializeGPS g)
  | .ping_pkt b p => 7 :: (serializeBase b ++ serializePing p)
  | .loc_pkt b l => 8 :: (serializeBase b ++ serializeLocEst l)
  | .str_rqt b => 9 :: serializeBase b
  | .str_rsp b s => 10 :: (serializeBase b ++ [serializeBool s])
  | .stp_rqt b => 11 :: serializeBase b
  | .stp_rsp b s => 12 :: (serializeBase b ++ [serializeBool s])
  | .err_pkt b => 13 :: serializeBase b
  | .unset => []

/-- Read `w` bytes as a little-endian number; `none` on short input. -/
def readN (w : Nat) (bs : List Nat) : Option (Nat × List Nat) :=
  if w ≤ bs.length then some (ofBytesLE (bs.take w), bs.drop w) else none

/-- Read the common header. -/
def readBase (bs : List Nat) : Option (BasePacket × List Nat) := do
  let (pid, bs) ← readN 4 bs
  let (nb, bs) ← readN 1 bs
  let (ts, bs) ← readN 8 bs
  some (⟨pid, nb != 0, ts⟩, bs)

/-- Read a counted list of u32 values. -/
def readFreqs : Nat → List Nat → Option (List Nat × List Nat)
  | 0, bs => some ([], bs)
  | n + 1, bs => do
      let (f, bs) ← readN 4 bs
      let (fs, bs) ← readFreqs n bs
      some (f :: fs, bs)

/-- Read the `cfg_rqt` body. -/
def readConfigRequest (bs : List Nat) : Option (ConfigRequestBody × List Nat) := do
  let (gain, bs) ← readN 4 bs
  let (sampling_rate, bs) ← readN 4 bs
  let (center_frequency, bs) ← readN 4 bs
  let (run_num, bs) ← readN 4 bs
  let (etd, bs) ← readN 1 bs
  let (ping_width_ms, bs) ← readN 4 bs
  let (ping_min_snr, bs) ← readN 4 bs
  let (ping_max_len_mult, bs) ← readN 4 bs
  let (ping_min_len_mult, bs) ← readN 4 bs
  let (n, bs) ← readN 2 bs
  let (fs, bs) ← readFreqs n bs
  some (⟨gain, sampling_rate, center_frequency, run_num, etd != 0,
         ping_width_ms, ping_min_snr, ping_max_len_mult, ping_min_len_mult, fs⟩, bs)

/-- Read the `gps_pkt` body. -/
def readGPS (bs : List Nat) : Option (GPSBody × List Nat) := do
  let (e, bs) ← readN 8 bs
  let (n, bs) ← readN 8 bs
  let (a, bs) ← readN 8 bs
  let (h, bs) ← readN 8 bs
  let (c, bs) ← readN 4 bs
  some (⟨e, n, a, h, c⟩, bs)

/-- Read the `ping_pkt` body. -/
def readPing (bs : List Nat) : Option (PingBody × List Nat) := do
  let (f, bs) ← readN 4 bs
  let (am, bs) ← readN 8 bs
  let (e, bs) ← readN 8 bs
  let (n, bs) ← readN 8 bs
  let (al, bs) ← readN 8 bs
  let (c, bs) ← readN 4 bs
  some (⟨f, am, e, n, al, c⟩, bs)

/-- Read the `loc_pkt` body. -/
def readLocEst (bs : List Nat) : Option (LocEstBody × List Nat) := do
  let (f, bs) ← readN 4 bs
  let (e, bs) ← readN 8 bs
  let (n, bs) ← readN 8 bs
  let (c, bs) ← readN 4 bs
  some (⟨f, e, n, c⟩, bs)

/-- Parse one variant given its tag byte. -/
def parseVariant (tag : Nat) (bs : List Nat) : Option (RadioPacket × List Nat) := do
  let (b, bs) ← readBase bs
  match tag with
  | 1 => do let (a, bs) ← readN 4 bs; some (.ack_pkt b a, bs)
  | 2 => some (.syn_rqt b, bs)
  | 3 => do let (s, bs) ← readN 1 bs; some (.syn_rsp b (s != 0), bs)
  | 4 => do let (c, bs) ← readConfigRequest bs; some (.cfg_rqt b c, bs)
  | 5 => do let (s, bs) ← readN 1 bs; some (.cfg_rsp b (s != 0), bs)
  | 6 => do let (g, bs) ← readGPS bs; some (.gps_pkt b g, bs)
  | 7 => do let (p, bs) ← readPing bs; some (.ping_pkt b p, bs)
  | 8 => do let (l, bs) ← readLocEst bs; some (.loc_pkt b l, bs)
  | 9 => some (.str_rqt b, bs)
  | 10 => do let (s, bs) ← readN 1 bs; some (.str_rsp b (s != 0), bs)
  | 11 => some (.stp_rqt b, bs)
  | 12 => do let (s, bs) ← readN 1 bs; some (.stp_rsp b (s != 0), bs)
  | 13 => some (.err_pkt b, bs)
  | _ => none

/-- Modelled from the spec: `RadioPacket.ParseFromString`.  The protobuf
parser raises `DecodeError` on malformed bodies; that outcome is the
`Except.error` branch here.  An empty body parses to the all-unset
message, as protobuf's does. -/
def parseFromString (bs : List Nat) : Except Unit RadioPacket :=
  match bs with
  | [] => .ok .unset
  | tag :: rest =>
      match parseVariant tag rest with
      | some (p, []) => .ok p
      | _ => .error ()

/-! ## Well-formedness: fields within the bit widths of their proto types. -/

/-- Header fields within proto widths (`packet_id` u32, `timestamp` u64). -/
def BasePacket.WF (h : BasePacket) : Prop :=
  h.packet_id < 2 ^ 32 ∧ h.timestamp < 2 ^ 64

instance (h : BasePacket) : Decidable h.WF := by unfold BasePacket.WF; infer_instance

/-- Config-request fields within proto widths; the frequency list fits a
two-byte count. -/
def ConfigRequestBody.WF (c : ConfigRequestBody) : Prop :=
  c.gain < 2 ^ 32 ∧ c.sampling_rate < 2 ^ 32 ∧ c.center_frequency < 2 ^ 32 ∧
  c.run_num < 2 ^ 32 ∧ c.ping_width_ms < 2 ^ 32 ∧ c.ping_min_snr < 2 ^ 32 ∧
  c.ping_max_len_mult < 2 ^ 32 ∧ c.ping_min_len_mult < 2 ^ 32 ∧
  c.target_frequencies.length < 2 ^ 16 ∧
  ∀ f ∈ c.target_frequencies, f < 2 ^ 32

instance (c : ConfigRequestBody) : Decidable c.WF := by
  unfold ConfigRequestBody.WF; infer_instance

/-- GPS fields within proto widths. -/
def GPSBody.WF (g : GPSBody) : Prop :=
  g.easting < 2 ^ 64 ∧ g.northing < 2 ^ 64 ∧ g.altitude < 2 ^ 64 ∧
  g.heading < 2 ^ 64 ∧ g.epsg_code < 2 ^ 32

instance (g : GPSBody) : Decidable g.WF := by unfold GPSBody.WF; infer_instance

/-- Ping fields within proto widths. -/
def PingBody.WF (p : PingBody) : Prop :=
  p.frequency < 2 ^ 32 ∧ p.amplitude < 2 ^ 64 ∧ p.easting < 2 ^ 64 ∧
  p.northing < 2 ^ 64 ∧ p.altitude < 2 ^ 64 ∧ p.epsg_code < 2 ^ 32

instance (p : PingBody) : Decidable p.WF := by unfold PingBody.WF; infer_instance

/-- Location-estimate fields within proto widths. -/
def LocEstBody.WF (l : LocEstBody) : Prop :=
  l.frequency < 2 ^ 32 ∧ l.easting < 2 ^ 64 ∧ l.northing < 2 ^ 64 ∧
  l.epsg_code < 2 ^ 32

instance (l : LocEstBody) : Decidable l.WF := by unfold LocEstBody.WF; infer_instance

/-- A message all of whose fields fit their proto types. -/
def RadioPacket.WF : RadioPacket → Prop
  | .ack_pkt b a => b.WF ∧ a < 2 ^ 32
  | .syn_rqt b => b.WF
  | .syn_rsp b _ => b.WF
  | .cfg_rqt b c => b.WF ∧ c.WF
  | .cfg_rsp b _ => b.WF
  | .gps_pkt b g => b.WF ∧ g.WF
  | .ping_pkt b p => b.WF ∧ p.WF
  | .loc_pkt b l => b.WF ∧ l.WF
  | .str_rqt b => b.WF
  | .str_rsp b _ => b.WF
  | .stp_rqt b => b.WF
  | .stp_rsp b _ => b.WF
  | .err_pkt b => b.WF
  | .unset => True

instance : ∀ p : RadioPacket, Decidable p.WF := by
  intro p; unfold RadioPacket.WF; cases p <;> infer_instance

/-! ## Reader/serializer round-trip lemmas -/

theorem readN_append {w v : Nat} (h : v < 256 ^ w) (rest : List Nat) :
    readN w (toBytesLE w v ++ rest) = some (v, rest) := by
  have hlen : (toBytesLE w v).length = w := toBytesLE_length w v
  rw [readN, if_pos (by simp [hlen])]
  rw [List.take_left' hlen, List.drop_left' hlen, ofBytesLE_toBytesLE_of_lt h]

theorem readN_self {w v : Nat} (h : v < 256 ^ w) :
    readN w (toBytesLE w v) = some (v, []) := by
  have := readN_append h []
  rwa [List.append_nil] at this

theorem readN_one (x : Nat) (rest : List Nat) :
    readN 1 (x :: rest) = some (x, rest) := by
  rw [readN, if_pos (by simp)]
  simp [ofBytesLE]

theorem serializeBool_ne_zero (b : Bool) : (serializeBool b != 0) = b := by
  cases b <;> rfl

theorem readBase_append (b : BasePacket) (hb : b.WF) (rest : List Nat) :
    readBase (serializeBase b ++ rest) = some (b, rest) := by
  obtain ⟨h1, h2⟩ := hb
  simp only [serializeBase, List.append_assoc, List.cons_append, List.nil_append, readBase]
  rw [readN_append (by norm_num at h1 ⊢; exact h1) _]
  simp only [Option.bind_eq_bind, Option.some_bind]
  rw [readN_one]
  simp only [Option.some_bind]
  rw [readN_append (by norm_num at h2 ⊢; exact h2) rest]
  simp [serializeBool_ne_zero]

theorem readFreqs_append (fs : List Nat) (h : ∀ f ∈ fs, f < 2 ^ 32)
    (rest : List Nat) :
    readFreqs fs.length (fs.flatMap (toBytesLE 4) ++ rest) = some (fs, rest) := by
  induction fs with
  | nil => simp [readFreqs]
  | cons f fs ih =>
      simp only [List.flatMap_cons, List.length_cons, List.append_assoc, readFreqs]
      rw [readN_append (by have := h f (by simp); norm_num at this ⊢; exact this)]
      simp only [Option.bind_eq_bind, Option.some_bind]
      rw [ih (fun g hg => h g (by simp [hg]))]
      rfl

theorem readConfigRequest_append (c : ConfigRequestBody) (hc : c.WF)
    (rest : List Nat) :
    readConfigRequest (serializeConfigRequest c ++ rest) = some (c, rest) := by
  obtain ⟨h1, h2, h3, h4, h5, h6, h7, h8, h9, h10⟩ := hc
  have hn : ∀ {v : Nat}, v < 2 ^ 32 → v < 256 ^ 4 := by intro v h; omega
  have hn2 : c.target_frequencies.length < 256 ^ 2 := by omega
  simp only [serializeConfigRequest, List.append_assoc, List.cons_append,
    List.nil_append, readConfigRequest]
  rw [readN_append (hn h1)]
  simp only [Option.bind_eq_bind, Option.some_bind]
  rw [readN_append (hn h2)]
  simp only [Option.some_bind]
  rw [readN_append (hn h3)]
  simp only [Option.some_bind]
  rw [readN_append (hn h4)]
  simp only [Option.some_bind]
  rw [readN_one]
  simp only [Option.some_bind]
  rw [readN_append (hn h5)]
  simp only [Option.some_bind]
  rw [readN_append (hn h6)]
  simp only [Option.some_bind]
  rw [readN_append (hn h7)]
  simp only [Option.some_bind]
  rw [readN_append (hn h8)]
  simp only [Option.some_bind]
  rw [readN_append hn2]
  simp only [Option.some_bind]
  rw [readFreqs_append _ h10]
  simp [serializeBool_ne_zero]

theorem readGPS_append (g : GPSBody) (hg : g.WF) (rest : List Nat) :
    readGPS (serializeGPS g ++ rest) = some (g, rest) := by
  obtain ⟨h1, h2, h3, h4, h5⟩ := hg
  have k8 : ∀ {v : Nat}, v < 2 ^ 64 → v < 256 ^ 8 := by intro v h; omega
  have k4 : ∀ {v : Nat}, v < 2 ^ 32 → v < 256 ^ 4 := by intro v h; omega
  simp only [serializeGPS, List.append_assoc, readGPS]
  rw [readN_append (k8 h1)]
  simp only [Option.bind_eq_bind, Option.some_bind]
  rw [readN_append (k8 h2)]
  simp only [Option.some_bind]
  rw [readN_append (k8 h3)]
  simp only [Option.some_bind]
  rw [readN_append (k8 h4)]
  simp only [Option.some_bind]
  rw [readN_append (k4 h5)]
  rfl

theorem readPing_append (p : PingBody) (hp : p.WF) (rest : List Nat) :
    readPing (serializePing p ++ rest) = some (p, rest) := by
  obtain ⟨h1, h2, h3, h4, h5, h6⟩ := hp
  have k8 : ∀ {v : Nat}, v < 2 ^ 64 → v < 256 ^ 8 := by intro v h; omega
  have k4 : ∀ {v : Nat}, v < 2 ^ 32 → v < 256 ^ 4 := by intro v h; omega
  simp only [serializePing, List.append_assoc, readPing]
  rw [readN_append (k4 h1)]
  simp only [Option.bind_eq_bind, Option.some_bind]
  rw [readN_append (k8 h2)]
  simp only [Option.some_bind]
  rw [readN_append (k8 h3)]
  simp only [Option.some_bind]
  rw [readN_append (k8 h4)]
  simp only [Option.some_bind]
  rw [readN_append (k8 h5)]
  simp only [Option.some_bind]
  rw [readN_append (k4 h6)]
  rfl

theorem readLocEst_append (l : LocEstBody) (hl : l.WF) (rest : List Nat) :
    readLocEst (serializeLocEst l ++ rest) = some (l, rest) := by
  obtain ⟨h1, h2, h3, h4⟩ := hl
  have k8 : ∀ {v : Nat}, v < 2 ^ 64 → v < 256 ^ 8 := by intro v h; omega
  have k4 : ∀ {v : Nat}, v < 2 ^ 32 → v < 256 ^ 4 := by intro v h; omega
  simp only [serializeLocEst, List.append_assoc, readLocEst]
  rw [readN_append (k4 h1)]
  simp only [Option.bind_eq_bind, Option.some_bind]
  rw [readN_append (k8 h2)]
  simp only [Option.some_bind]
  rw [readN_append (k8 h3)]
  simp only [Option.some_bind]
  rw [readN_append (k4 h4)]
  rfl

theorem parseFromString_serializeToString (p : RadioPacket) (h : p.WF) :
    parseFromString (serializeToString p) = .ok p := by
  cases p with
  | ack_pkt b a =>
      obtain ⟨hb, ha⟩ := h
      simp only [serializeToString, parseFromString, parseVariant]
      rw [readBase_append b hb]
      simp only [Option.bind_eq_bind, Option.some_bind]
      rw [readN_self (by norm_num at ha ⊢; exact ha)]
      rfl
  | syn_rqt b =>
      simp only [serializeToString, parseFromString, parseVariant]
      rw [show serializeBase b = serializeBase b ++ [] by simp, readBase_append b h]
      rfl
  | syn_rsp b s =>
      simp only [serializeToString, parseFromString, parseVariant]
      rw [readBase_append b h]
      simp only [Option.bind_eq_bind, Option.some_bind]
      rw [readN_one]
      simp [serializeBool_ne_zero]
  | cfg_rqt b c =>
      obtain ⟨hb, hc⟩ := h
      simp only [serializeToString, parseFromString, parseVariant]
      rw [readBase_append b hb]
      simp only [Option.bind_eq_bind, Option.some_bind]
      rw [show serializeConfigRequest c = serializeConfigRequest c ++ [] by simp,
        readConfigRequest_append c hc]
      rfl
  | cfg_rsp b s =>
      simp only [serializeToString, parseFromString, parseVariant]
      rw [readBase_append b h]
      simp only [Option.bind_eq_bind, Option.some_bind]
      rw [readN_one]
      simp [serializeBool_ne_zero]
  | gps_pkt b g =>
      obtain ⟨hb, hg⟩ := h
      simp only [serializeToString, parseFromString, parseVariant]
      rw [readBase_append b hb]
      simp only [Option.bind_eq_bind, Option.some_bind]
      rw [show serializeGPS g = serializeGPS g ++ [] by simp, readGPS_append g hg]
      rfl
  | ping_pkt b q =>
      obtain ⟨hb, hq⟩ := h
      simp only [serializeToString, parseFromString, parseVariant]
      rw [readBase_append b hb]
      simp only [Option.bind_eq_bind, Option.some_bind]
      rw [show serializePing q = serializePing q ++ [] by simp, readPing_append q hq]
      rfl
  | loc_pkt b l =>
      obtain ⟨hb, hl⟩ := h
      simp only [serializeToString, parseFromString, parseVariant]
      rw [readBase_append b hb]
      simp only [Option.bind_eq_bind, Option.some_bind]
      rw [show serializeLocEst l = serializeLocEst l ++ [] by simp,
        readLocEst_append l hl]
      rfl
  | str_rqt b =>
      simp only [serializeToString, parseFromString, parseVariant]
      rw [show serializeBase b = serializeBase b ++ [] by simp, readBase_append b h]
      rfl
  | str_rsp b s =>
      simp only [serializeToString, parseFromString, parseVariant]
      rw [readBase_append b h]
      simp only [Option.bind_eq_bind, Option.some_bind]
      rw [readN_one]
      simp [serializeBool_ne_zero]
  | stp_rqt b =>
      simp only [serializeToString, parseFromString, parseVariant]
      rw [show serializeBase b = serializeBase b ++ [] by simp, readBase_append b h]
      rfl
  | stp_rsp b s =>
      simp only [serializeToString, parseFromString, parseVariant]
      rw [readBase_append b h]
      simp only [Option.bind_eq_bind, Option.some_bind]
      rw [readN_one]
      simp [serializeBool_ne_zero]
  | err_pkt b =>
      simp only [serializeToString, parseFromString, parseVariant]
      rw [show serializeBase b = serializeBase b ++ [] by simp, readBase_append b h]
      rfl
  | unset => rfl

/-! ## Framing codec (`codec.RadioCodec`) -/

/-- `codec.SYNC_MARKER = b"\xAA\x55"`. -/
def SYNC_MARKER : List Nat := [0xAA, 0x55]

/-- `codec.SYNC_MARKER_LENGTH`. -/
def SYNC_MARKER_LENGTH : Nat := SYNC_MARKER.length

/-- `codec.LENGTH_FIELD_SIZE`. -/
def LENGTH_FIELD_SIZE : Nat := 4

/-- `codec.CHECKSUM_SIZE`. -/
def CHECKSUM_SIZE : Nat := 2

/-- Translation of `RadioCodec.encode_packet`: sync marker, 4-byte
big-endian body length, body, 2-byte big-endian CRC over everything
before it. -/
def encode_packet (packet : RadioPacket) : List Nat :=
  let message_data := serializeToString packet
  let header := SYNC_MARKER ++ toBytesBE LENGTH_FIELD_SIZE message_data.length
  let data_without_checksum := header ++ message_data
  let checksum_val := _calculate_crc16_ccitt data_without_checksum
  data_without_checksum ++ toBytesBE CHECKSUM_SIZE checksum_val

/-- The body-length field of a candidate frame
(`int.from_bytes(data[2:6], "big")`). -/
def lengthField (data : List Nat) : Nat :=
  ofBytesBE ((data.drop SYNC_MARKER_LENGTH).take LENGTH_FIELD_SIZE)

/-- Translation of `RadioCodec.decode_packet`: the nested validation of
length, sync marker, exact total length, checksum, then the schema
parse whose failure is caught and mapped to `none`. -/

def decode_packet (data : List Nat) : Option RadioPacket :=
  if SYNC_MARKER_LENGTH + LENGTH_FIELD_SIZE + CHECKSUM_SIZE ≤ data.length ∧
      data.take SYNC_MARKER_LENGTH = SYNC_MARKER then
    if data.length =
        SYNC_MARKER_LENGTH + LENGTH_FIELD_SIZE + lengthField data + CHECKSUM_SIZE then
      if _calculate_crc16_ccitt
          (data.take (SYNC_MARKER_LENGTH + LENGTH_FIELD_SIZE + lengthField data)) =
          ofBytesBE ((data.drop
            (SYNC_MARKER_LENGTH + LENGTH_FIELD_SIZE + lengthField data)).take
            CHECKSUM_SIZE) then
        match parseFromString
            ((data.drop (SYNC_MARKER_LENGTH + LENGTH_FIELD_SIZE)).take
              (lengthField data)) with
        | .ok p => some p
        | .error _ => none
      else none
    else none
  else none

theorem flatMap_toBytesLE_length (fs : List Nat) :
    (fs.flatMap (toBytesLE 4)).length = 4 * fs.length := by
  induction fs with
  | nil => rfl
  | cons f fs ih => simp [toBytesLE_length, ih]; ring

theorem serializeBase_length (b : BasePacket) : (serializeBase b).length = 13 := by
  simp [serializeBase, toBytesLE_length]

theorem serializeToString_length_lt (p : RadioPacket) (h : p.WF) :
    (serializeToString p).length < 2 ^ 32 := by
  cases p with
  | cfg_rqt b c =>
      obtain ⟨hb, hc⟩ := h
      have h9 := hc.2.2.2.2.2.2.2.2.1
      have hcl : (serializeConfigRequest c).length =
          35 + 4 * c.target_frequencies.length := by
        simp only [serializeConfigRequest, List.length_append, List.length_cons,
          List.length_nil, toBytesLE_length, flatMap_toBytesLE_length]
      simp only [serializeToString, List.length_cons, List.length_append,
        serializeBase_length, hcl]
      omega
  | ack_pkt b a => simp [serializeToString, serializeBase_length, toBytesLE_length]
  | syn_rqt b => simp [serializeToString, serializeBase_length]
  | syn_rsp b s => simp [serializeToString, serializeBase_length]
  | cfg_rsp b s => simp [serializeToString, serializeBase_length]
  | gps_pkt b g =>
      simp [serializeToString, serializeGPS, serializeBase_length, toBytesLE_length]
  | ping_pkt b q =>
      simp [serializeToString, serializePing, serializeBase_length, toBytesLE_length]
  | loc_pkt b l =>
      simp [serializeToString, serializeLocEst, serializeBase_length, toBytesLE_length]
  | str_rqt b => simp [serializeToString, serializeBase_length]
  | str_rsp b s => simp [serializeToString, serializeBase_length]
  | stp_rqt b => simp [serializeToString, serializeBase_length]
  | stp_rsp b s => simp [serializeToString, serializeBase_length]
  | err_pkt b => simp [serializeToString, serializeBase_length]
  | unset => simp [serializeToString]

/-- The assembled data-without-checksum prefix of an encoded frame. -/
def frameDWC (p : RadioPacket) : List Nat :=
  (SYNC_MARKER ++ toBytesBE LENGTH_FIELD_SIZE (serializeToString p).length) ++
    serializeToString p

theorem take_length_eq {α : Type} {l : List α} {n : Nat} (h : l.length = n) :
    l.take n = l := by
  rw [← h, List.take_length]

theorem frameDWC_length (p : RadioPacket) :
    (frameDWC p).length =
      SYNC_MARKER_LENGTH + LENGTH_FIELD_SIZE + (serializeToString p).length := by
  simp only [frameDWC, List.length_append, toBytesBE_length]
  rfl

theorem encode_packet_eq (p : RadioPacket) :
    encode_packet p =
      frameDWC p ++ toBytesBE CHECKSUM_SIZE (_calculate_crc16_ccitt (frameDWC p)) :=
  rfl

/-- The frame-level round trip: decoding an encoded well-formed message
recovers it exactly. -/
theorem decode_packet_encode_packet (p : RadioPacket) (h : p.WF) :
    decode_packet (encode_packet p) = some p := by
  have hL : (serializeToString p).length < 2 ^ 32 := serializeToString_length_lt p h
  have hHlen : (SYNC_MARKER ++
      toBytesBE LENGTH_FIELD_SIZE (serializeToString p).length).length =
      SYNC_MARKER_LENGTH + LENGTH_FIELD_SIZE := by
    simp only [List.length_append, toBytesBE_length]
    rfl
  have hElen : (encode_packet p).length =
      SYNC_MARKER_LENGTH + LENGTH_FIELD_SIZE + (serializeToString p).length +
        CHECKSUM_SIZE := by
    rw [encode_packet_eq]
    simp only [List.length_append, toBytesBE_length, frameDWC_length]
  have htake2 : (encode_packet p).take SYNC_MARKER_LENGTH = SYNC_MARKER := by
    rw [encode_packet_eq, frameDWC, List.append_assoc, List.append_assoc]
    exact List.take_left' rfl
  have hdrop2 : (encode_packet p).drop SYNC_MARKER_LENGTH =
      toBytesBE LENGTH_FIELD_SIZE (serializeToString p).length ++
        (serializeToString p ++
          toBytesBE CHECKSUM_SIZE (_calculate_crc16_ccitt (frameDWC p))) := by
    rw [encode_packet_eq, frameDWC, List.append_assoc, List.append_assoc]
    exact List.drop_left' rfl
  have hlenval : lengthField (encode_packet p) = (serializeToString p).length := by
    rw [lengthField, hdrop2, List.take_left' (toBytesBE_length _ _)]
    exact ofBytesBE_toBytesBE_of_lt (lt_of_lt_of_le hL (by norm_num [LENGTH_FIELD_SIZE]))
  have htakedwc : (encode_packet p).take
      (SYNC_MARKER_LENGTH + LENGTH_FIELD_SIZE + (serializeToString p).length) =
      frameDWC p := by
    rw [encode_packet_eq]
    exact List.take_left' (frameDWC_length p)
  have hdropdwc : (encode_packet p).drop
      (SYNC_MARKER_LENGTH + LENGTH_FIELD_SIZE + (serializeToString p).length) =
      toBytesBE CHECKSUM_SIZE (_calculate_crc16_ccitt (frameDWC p)) := by
    rw [encode_packet_eq]
    exact List.drop_left' (frameDWC_length p)
  have hcrcval : ofBytesBE (((encode_packet p).drop
      (SYNC_MARKER_LENGTH + LENGTH_FIELD_SIZE + (serializeToString p).length)).take
      CHECKSUM_SIZE) = _calculate_crc16_ccitt (frameDWC p) := by
    rw [hdropdwc, take_length_eq (toBytesBE_length _ _)]
    exact ofBytesBE_toBytesBE_of_lt
      (lt_of_lt_of_le (_calculate_crc16_ccitt_lt _) (by norm_num [CHECKSUM_SIZE]))
  have hmsg : ((encode_packet p).drop
      (SYNC_MARKER_LENGTH + LENGTH_FIELD_SIZE)).take (serializeToString p).length =
      serializeToString p := by
    rw [encode_packet_eq, frameDWC, List.append_assoc, List.drop_left' hHlen]
    exact List.take_left' rfl
  rw [decode_packet, if_pos ⟨by rw [hElen]; omega, htake2⟩, hlenval,
    if_pos hElen, if_pos (by rw [htakedwc, hcrcval]), hmsg,
    parseFromString_serializeToString p h]

/-! ## Packet manager (`transceiver.PacketManager`) -/

/-- `transceiver.MAX_PACKET_ID = 0x7FFFFFFF`. -/
def MAX_PACKET_ID : Nat := 0x7FFFFFFF

/-- `packet.HasField("ack_pkt")`. -/
def isAck : RadioPacket → Bool
  | .ack_pkt _ _ => true
  | _ => false

/-- `packet.ack_pkt.ack_id` (meaningful when `isAck`). -/
def ackIdOf : RadioPacket → Nat
  | .ack_pkt _ a => a
  | _ => 0

/-- Translation of `PacketManager._get_base`: returns the `base` field of
the set variant; raises `ValueError` when no known oneof field is set. -/
def _get_base : RadioPacket → Except String BasePacket
  | .ack_pkt b _ => .ok b
  | .syn_rqt b => .ok b
  | .syn_rsp b _ => .ok b
  | .cfg_rqt b _ => .ok b
  | .cfg_rsp b _ => .ok b
  | .gps_pkt b _ => .ok b
  | .ping_pkt b _ => .ok b
  | .loc_pkt b _ => .ok b
  | .str_rqt b => .ok b
  | .str_rsp b _ => .ok b
  | .stp_rqt b => .ok b
  | .stp_rsp b _ => .ok b
  | .err_pkt b => .ok b
  | .unset => .error "Unknown packet type in RadioPacket."

/-- An entry of `outstanding_acks`:
`{ "packet": ..., "send_time": ..., "retries": ... }`.  Wall-clock
times are modelled as integers. -/
structure OutstandingEntry where
  packet : RadioPacket
  send_time : Int
  retries : Nat
  deriving DecidableEq, Repr

/-- The mutable state of a `PacketManager` that the embedded operations
touch: the id counter, the send queue (priority, enqueue time, packet)
and the outstanding-ack table (insertion-ordered, keys unique). -/
structure ManagerState where
  next_packet_id : Nat
  send_queue : List (Nat × Int × RadioPacket)
  outstanding_acks : List (Nat × OutstandingEntry)
  deriving DecidableEq, Repr

/-- Translation of `PacketManager.generate_packet_id` acting on the
`_next_packet_id` counter: returns the id handed out and the new counter
value. -/
def generate_packet_id (next : Nat) : Nat × Nat :=
  let next' := if next > MAX_PACKET_ID then 1 else next
  (next', next' + 1)

/-- `generate_packet_id` at the state level. -/
def ManagerState.genId (s : ManagerState) : Nat × ManagerState :=
  let (pid, c) := generate_packet_id s.next_packet_id
  (pid, { s with next_packet_id := c })

/-- Observable actions of the inbound handler, in program order. -/
inductive ManagerEvent where
  | enqueued (priority : Nat) (pkt : RadioPacket)
  | dispatched (pkt : RadioPacket)
  deriving DecidableEq, Repr

/-- Translation of `PacketManager.enqueue_packet`: priority 0 when the
base requests an ack, else 1; the tuple is pushed with the current time.
`_get_base` may raise. -/
def enqueue_packet (s : ManagerState) (now_q : Int) (pkt : RadioPacket) :
    Except String (ManagerState × ManagerEvent) := do
  let base ← _get_base pkt
  let priority := if base.need_ack then 0 else 1
  .ok ({ s with send_queue := s.send_queue ++ [(priority, now_q, pkt)] },
       .enqueued priority pkt)

/-- Translation of `PacketManager._send_ack`: build an `ack_pkt` with a
fresh id, `need_ack = False`, the current microsecond timestamp and
`ack_id` set to the id being acknowledged, then enqueue it. -/
def _send_ack (s : ManagerState) (now_us : Nat) (now_q : Int)
    (packet_id_to_ack : Nat) : Except String (ManagerState × ManagerEvent) :=
  let (pid, s1) := s.genId
  enqueue_packet s1 now_q (.ack_pkt ⟨pid, false, now_us⟩ packet_id_to_ack)

/-- Translation of `PacketManager._handle_incoming_packet`: an Ack
removes its target from the outstanding table and returns; any other
packet first has an Ack enqueued for it when its header requests one,
and is then dispatched to `on_user_packet_received`. -/
def _handle_incoming_packet (s : ManagerState) (now_us : Nat) (now_q : Int)
    (pkt : RadioPacket) : Except String (ManagerState × List ManagerEvent) :=
  if isAck pkt then
    .ok ({ s with outstanding_acks :=
            s.outstanding_acks.filter (fun kv => kv.1 != ackIdOf pkt) }, [])
  else do
    let base ← _get_base pkt
    if base.need_ack then do
      let (s1, ev) ← _send_ack s now_us now_q base.packet_id
      .ok (s1, [ev, .dispatched pkt])
    else
      .ok (s, [.dispatched pkt])

/-! ## Retry sweep (`PacketManager._retry_outstanding_packets`) -/

/-- The per-manager retry knobs. -/
structure RetryConfig where
  ack_timeout : Int
  max_retries : Nat
  deriving DecidableEq, Repr

/-- One entry's treatment in a sweep at time `now`: returns the
surviving entry (if any), whether it was retransmitted, and whether it
timed out (entry removed, observer to be called). -/
def sweepEntry (cfg : RetryConfig) (now : Int) (e : OutstandingEntry) :
    Option OutstandingEntry × Bool × Bool :=
  if cfg.ack_timeout ≤ now - e.send_time then
    if e.retries < cfg.max_retries then
      (some { e with retries := e.retries + 1, send_time := now }, true, false)
    else
      (none, false, true)
  else
    (some e, false, false)

/-- Translation of `PacketManager._retry_outstanding_packets`: sweep the
table in insertion order; returns the new table, the packets
retransmitted during the sweep, and the packets handed to the
ack-timeout observer (in `to_remove` order). -/
def _retry_outstanding_packets (cfg : RetryConfig) (now : Int) :
    List (Nat × OutstandingEntry) →
      List (Nat × OutstandingEntry) × List RadioPacket × List RadioPacket
  | [] => ([], [], [])
  | (pid, e) :: rest =>
      let (e', tx, timedOut) := sweepEntry cfg now e
      let (rest', txs, tos) := _retry_outstanding_packets cfg now rest
      match e' with
      | some e2 => ((pid, e2) :: rest', (if tx then [e.packet] else []) ++ txs, tos)
      | none => (rest', txs, (if timedOut then [e.packet] else []) ++ tos)

/-- A sequence of retry sweeps (one per `queue.Empty` timeout of the
send loop), threading the outstanding table and accumulating the
retransmissions and timeout-observer calls. -/
def runSweeps (cfg : RetryConfig) (table : List (Nat × OutstandingEntry)) :
    List Int →
      List (Nat × OutstandingEntry) × List RadioPacket × List RadioPacket
  | [] => (table, [], [])
  | now :: laters =>
      let (t1, txs, tos) := _retry_outstanding_packets cfg now table
      let (t2, txs2, tos2) := runSweeps cfg t1 laters
      (t2, txs ++ txs2, tos ++ tos2)

theorem runSweeps_nil_table (cfg : RetryConfig) (times : List Int) :
    runSweeps cfg [] times = ([], [], []) := by
  induction times with
  | nil => rfl
  | cons now laters ih => simp [runSweeps, _retry_outstanding_packets, ih]

/-- Invariant run of a singleton outstanding table: retransmissions are
bounded by the retry budget, they all resend the original packet, and
the timeout observer fires at most once, with the original packet, upon
removal. -/
theorem runSweeps_single (cfg : RetryConfig) (pid : Nat) (pkt : RadioPacket)
    (times : List Int) :
    ∀ (t0 : Int) (r : Nat), r ≤ cfg.max_retries →
      (runSweeps cfg [(pid, ⟨pkt, t0, r⟩)] times).2.1.length + r ≤ cfg.max_retries ∧
      (∀ x ∈ (runSweeps cfg [(pid, ⟨pkt, t0, r⟩)] times).2.1, x = pkt) ∧
      ((runSweeps cfg [(pid, ⟨pkt, t0, r⟩)] times).2.2 = [] ∨
        ((runSweeps cfg [(pid, ⟨pkt, t0, r⟩)] times).2.2 = [pkt] ∧
          (runSweeps cfg [(pid, ⟨pkt, t0, r⟩)] times).1 = [])) := by
  induction times with
  | nil =>
      intro t0 r hr
      refine ⟨by simpa [runSweeps] using hr, ?_, Or.inl rfl⟩
      intro x hx
      simp [runSweeps] at hx
  | cons now laters ih =>
      intro t0 r hr
      by_cases helapsed : cfg.ack_timeout ≤ now - t0
      · by_cases hretry : r < cfg.max_retries
        · have step : _retry_outstanding_packets cfg now [(pid, ⟨pkt, t0, r⟩)] =
              ([(pid, ⟨pkt, now, r + 1⟩)], [pkt], []) := by
            simp [_retry_outstanding_packets, sweepEntry, helapsed, hretry]
          obtain ⟨ih1, ih2, ih3⟩ := ih now (r + 1) hretry
          constructor
          · simp only [runSweeps, step]
            simpa [Nat.add_comm, Nat.add_left_comm, Nat.add_assoc] using ih1
          constructor
          · intro x hx
            simp only [runSweeps, step] at hx
            rcases List.mem_cons.mp hx with h | h
            · exact h
            · exact ih2 x h
          · rcases ih3 with h | ⟨h1, h2⟩
            · exact Or.inl (by simp [runSweeps, step, h])
            · exact Or.inr ⟨by simp [runSweeps, step, h1], by simp [runSweeps, step, h2]⟩
        · have hreq : r = cfg.max_retries := Nat.le_antisymm hr (Nat.not_lt.mp hretry)
          have step : _retry_outstanding_packets cfg now [(pid, ⟨pkt, t0, r⟩)] =
              ([], [], [pkt]) := by
            simp [_retry_outstanding_packets, sweepEntry, helapsed, hretry]
          constructor
          · simpa [runSweeps, step, runSweeps_nil_table] using hr
          constructor
          · intro x hx
            simp [runSweeps, step, runSweeps_nil_table] at hx
          · exact Or.inr ⟨by simp [runSweeps, step, runSweeps_nil_table],
              by simp [runSweeps, step, runSweeps_nil_table]⟩
      · have step : _retry_outstanding_packets cfg now [(pid, ⟨pkt, t0, r⟩)] =
            ([(pid, ⟨pkt, t0, r⟩)], [], []) := by
          simp [_retry_outstanding_packets, sweepEntry, helapsed]
        obtain ⟨ih1, ih2, ih3⟩ := ih t0 r hr
        refine ⟨by simpa [runSweeps, step] using ih1, ?_, ?_⟩
        · intro x hx
          simp only [runSweeps, step] at hx
          exact ih2 x (by simpa using hx)
        · rcases ih3 with h | ⟨h1, h2⟩
          · exact Or.inl (by simp [runSweeps, step, h])
          · exact Or.inr ⟨by simp [runSweeps, step, h1], by simp [runSweeps, step, h2]⟩

/-! ## Typed dispatch (`DroneComms._invoke_handlers`)

The Python source:
```
to_remove = []
for i, (callback, once) in enumerate(handlers_list):
    callback(data)
    if once:
        to_remove.append(i)
for i in reversed(to_remove):
    handlers_list.pop(i)
```
An observer is identified by a number; its behaviour on a datum (normal
return or raised exception) is a parameter `behav`.  A raised exception
is `Except.error`: the loop body has no handler, so it aborts the loop
and the removal sweep never runs — the handler list is left as it was. -/

section Dispatch

variable {α : Type}

/-- The `for i, (callback, once) in enumerate(...)` loop, started at
index `i`: returns the observers invoked (in order), the `to_remove`
indices collected, and whether an observer raised (aborting the loop). -/
def invokeLoop (behav : Nat → α → Except Unit Unit) (data : α) :
    List (Nat × Bool) → Nat → List Nat × List Nat × Bool
  | [], _ => ([], [], false)
  | (cb, once) :: rest, i =>
      match behav cb data with
      | .error _ => ([cb], [], true)
      | .ok _ =>
          let (inv, rem, err) := invokeLoop behav data rest (i + 1)
          (cb :: inv, (if once then [i] else []) ++ rem, err)

/-- Removal of the elements whose index is in `idxs` — the effect of
`for i in reversed(to_remove): handlers_list.pop(i)` (popping from the
tail backwards keeps the earlier indices of `to_remove` valid, so the
elements removed are exactly those indexed by `to_remove`). -/
def removeIndices (l : List (Nat × Bool)) (idxs : List Nat) : List (Nat × Bool) :=
  (l.enum.filter (fun p => !(decide (p.1 ∈ idxs)))).map Prod.snd

/-- Translation of `DroneComms._invoke_handlers`: returns the observers
invoked during the pass and either the updated handler list or the
propagated exception (in which case the list is unchanged — the removal
sweep never ran). -/
def _invoke_handlers (behav : Nat → α → Except Unit Unit)
    (handlers_list : List (Nat × Bool)) (data : α) :
    List Nat × Except Unit (List (Nat × Bool)) :=
  let (inv, rem, err) := invokeLoop behav data handlers_list 0
  if err then (inv, .error ())
  else (inv, .ok (removeIndices handlers_list rem))

/-- The indices (counting from `i`) of the `once = true` entries. -/
def onceIndices : List (Nat × Bool) → Nat → List Nat
  | [], _ => []
  | (_, once) :: rest, i => (if once then [i] else []) ++ onceIndices rest (i + 1)

theorem onceIndices_ge (l : List (Nat × Bool)) :
    ∀ i j, j ∈ onceIndices l i → i ≤ j := by
  induction l with
  | nil => intro i j hj; simp [onceIndices] at hj
  | cons h t ih =>
      intro i j hj
      obtain ⟨cb, once⟩ := h
      simp only [onceIndices, List.mem_append] at hj
      rcases hj with hj | hj
      · rcases once with _ | _ <;> simp_all
      · exact Nat.le_of_succ_le (ih (i + 1) j hj)

theorem invokeLoop_ok (behav : Nat → α → Except Unit Unit) (data : α)
    (l : List (Nat × Bool)) :
    ∀ i, (∀ cb ∈ l.map Prod.fst, behav cb data = .ok ()) →
      invokeLoop behav data l i = (l.map Prod.fst, onceIndices l i, false) := by
  induction l with
  | nil => intro i _; rfl
  | cons h t ih =>
      intro i hok
      obtain ⟨cb, once⟩ := h
      have hcb : behav cb data = .ok () := hok cb (by simp)
      simp only [invokeLoop, hcb]
      rw [ih (i + 1) (fun c hc => hok c (by simp [hc]))]
      rfl

theorem enumFrom_fst_ge (l : List (Nat × Bool)) :
    ∀ i p, p ∈ l.enumFrom i → i ≤ p.1 := by
  induction l with
  | nil => intro i p hp; simp [List.enumFrom] at hp
  | cons h t ih =>
      intro i p hp
      simp only [List.enumFrom, List.mem_cons] at hp
      rcases hp with rfl | hp
      · exact Nat.le_refl i
      · exact Nat.le_of_succ_le (ih (i + 1) p hp)

theorem removeOnce_filter (l : List (Nat × Bool)) :
    ∀ i, ((l.enumFrom i).filter
        (fun p => !(decide (p.1 ∈ onceIndices l i)))).map Prod.snd =
      l.filter (fun h => !h.2) := by
  induction l with
  | nil => intro i; rfl
  | cons h t ih =>
      intro i
      obtain ⟨cb, once⟩ := h
      have htail : ∀ p ∈ t.enumFrom (i + 1),
          (!(decide (p.1 ∈ onceIndices ((cb, once) :: t) i))) =
            (!(decide (p.1 ∈ onceIndices t (i + 1)))) := by
        intro p hp
        have hge : i + 1 ≤ p.1 := enumFrom_fst_ge t (i + 1) p hp
        simp only [onceIndices]
        cases once with
        | false => simp
        | true =>
            simp only [List.cons_append, List.nil_append, List.mem_cons]
            have hne : ¬(p.1 = i) := by omega
            simp [hne]
      have hfiltert : (t.enumFrom (i + 1)).filter
          (fun p => !(decide (p.1 ∈ onceIndices ((cb, once) :: t) i))) =
          (t.enumFrom (i + 1)).filter
          (fun p => !(decide (p.1 ∈ onceIndices t (i + 1)))) :=
        List.filter_congr htail
      cases once with
      | false =>
          have hnotmem : ¬(i ∈ onceIndices ((cb, false) :: t) i) := by
            simp only [onceIndices, Bool.false_eq_true, if_false, List.nil_append]
            intro hmem
            have := onceIndices_ge t (i + 1) i hmem
            omega
          simp only [List.enumFrom, List.filter_cons]
          simp [hnotmem, hfiltert, ih (i + 1)]
      | true =>
          have hmem : i ∈ onceIndices ((cb, true) :: t) i := by
            simp [onceIndices]
          simp only [List.enumFrom, List.filter_cons]
          simp [hmem, hfiltert, ih (i + 1)]

/-- One pass with no raising observer: everyone is invoked in order and
exactly the `once = true` entries are removed. -/
theorem invoke_handlers_ok (behav : Nat → α → Except Unit Unit)
    (l : List (Nat × Bool)) (data : α)
    (hok : ∀ cb ∈ l.map Prod.fst, behav cb data = .ok ()) :
    _invoke_handlers behav l data =
      (l.map Prod.fst, .ok (l.filter (fun h => !h.2))) := by
  unfold _invoke_handlers
  rw [invokeLoop_ok behav data l 0 hok]
  simp only [Bool.false_eq_true, if_false, removeIndices]
  rw [show l.enum = l.enumFrom 0 from rfl, removeOnce_filter l 0]

/-- The enumerate loop aborted by a raising observer: the prefix and the
raiser are invoked, nothing after. -/
theorem invokeLoop_err (behav : Nat → α → Except Unit Unit) (data : α)
    (l₁ l₂ : List (Nat × Bool)) (cb : Nat) (fl : Bool)
    (herr : behav cb data = .error ()) :
    ∀ i, (∀ c ∈ l₁.map Prod.fst, behav c data = .ok ()) →
      invokeLoop behav data (l₁ ++ (cb, fl) :: l₂) i =
        (l₁.map Prod.fst ++ [cb], onceIndices l₁ i, true) := by
  induction l₁ with
  | nil =>
      intro i _
      simp only [List.nil_append, invokeLoop, herr, List.map_nil, onceIndices]
  | cons h t ih =>
      intro i hok
      obtain ⟨c0, once0⟩ := h
      have hc0 : behav c0 data = .ok () := hok c0 (by simp)
      simp only [List.cons_append, invokeLoop, hc0, List.append_eq]
      rw [ih (i + 1) (fun c hc => hok c (by simp [hc]))]
      simp [onceIndices]

/-- A raising observer makes `_invoke_handlers` propagate the exception:
only the prefix (and the raiser) ran, and no removal happened. -/
theorem invoke_handlers_err (behav : Nat → α → Except Unit Unit) (data : α)
    (l₁ l₂ : List (Nat × Bool)) (cb : Nat) (fl : Bool)
    (hok : ∀ c ∈ l₁.map Prod.fst, behav c data = .ok ())
    (herr : behav cb data = .error ()) :
    _invoke_handlers behav (l₁ ++ (cb, fl) :: l₂) data =
      (l₁.map Prod.fst ++ [cb], .error ()) := by
  unfold _invoke_handlers
  rw [invokeLoop_err behav data l₁ l₂ cb fl herr 0 hok]
  rfl

/-- Repeated delivery passes: each pass feeds the updated handler list
to the next; a propagated exception ends the run. -/
def runPasses (behav : Nat → α → Except Unit Unit) :
    List (Nat × Bool) → List α → List (List Nat) × List (Nat × Bool)
  | l, [] => ([], l)
  | l, d :: ds =>
      match _invoke_handlers behav l d with
      | (inv, .ok l2) =>
          let (invs, lf) := runPasses behav l2 ds
          (inv :: invs, lf)
      | (inv, .error _) => ([inv], l)

/-- A handler list with no `once` entries is left unchanged by an
exception-free pass, and every pass invokes exactly its observers. -/
theorem runPasses_stable (behav : Nat → α → Except Unit Unit)
    (m : List (Nat × Bool)) (hstable : ∀ e ∈ m, e.2 = false)
    (hok : ∀ cb a, behav cb a = .ok ()) :
    ∀ ds : List α, runPasses behav m ds =
      (ds.map (fun _ => m.map Prod.fst), m) := by
  intro ds
  induction ds with
  | nil => rfl
  | cons d ds ih =>
      have hpass := invoke_handlers_ok behav m d (fun cb _ => hok cb d)
      have hfix : m.filter (fun h => !h.2) = m := by
        rw [List.filter_eq_self]
        intro a ha
        simp [hstable a ha]
      simp only [runPasses, hpass, hfix, ih, List.map_cons]

end Dispatch

/-! ## Helper lemmas for the dispatch claims -/

theorem count_two_mem {l : List (Nat × Bool)} {o : Nat}
    (h1 : (o, true) ∈ l) (h2 : (o, false) ∈ l) :
    2 ≤ (l.map Prod.fst).count o := by
  obtain ⟨s, t, rfl⟩ := List.append_of_mem h1
  have hsplit : (o, false) ∈ s ∨ (o, false) ∈ t := by
    rcases List.mem_append.mp h2 with h | h
    · exact Or.inl h
    · rcases List.mem_cons.mp h with heq | h
      · exact absurd heq (by simp)
      · exact Or.inr h
  have hcnt : ∀ m : List (Nat × Bool), (o, false) ∈ m →
      1 ≤ (m.map Prod.fst).count o := by
    intro m hm
    have homem : o ∈ m.map Prod.fst := List.mem_map_of_mem Prod.fst hm
    exact List.count_pos_iff.mpr homem
  rcases hsplit with h | h
  · have hs := hcnt s h
    simp only [List.map_append, List.map_cons, List.count_append,
      List.count_cons_self]
    omega
  · have ht := hcnt t h
    simp only [List.map_append, List.map_cons, List.count_append,
      List.count_cons_self]
    omega

theorem sum_map_zero {β : Type} (ds : List β) :
    (ds.map (fun _ => (0 : Nat))).sum = 0 := by
  induction ds with
  | nil => rfl
  | cons d ds ih => simp [ih]

/-- An always-succeeding observer behaviour. -/
def okObserver : Nat → Unit → Except Unit Unit := fun _ _ => .ok ()

/-- Observer 0 raises; every other observer returns normally. -/
def raisingObserver : Nat → Unit → Except Unit Unit :=
  fun i _ => if i = 0 then .error () else .ok ()

/-! ## Claim theorems -/

/-- C1: for every well-formed message of one of the thirteen variants,
decoding the encoding succeeds and returns a message whose variant tag,
header fields and body fields all equal those of the original (stated as
equality of the whole message). -/
theorem decode_encode_roundtrip (m : RadioPacket) (hwf : m.WF)
    (_hvariant : m ≠ RadioPacket.unset) :
    decode_packet (encode_packet m) = some m :=
  decode_packet_encode_packet m hwf

/-- Witness for C1 at the Ack of the repository's round-trip test
(packet_id 1234, need_ack false, timestamp 999999, ack_id 5678). -/
theorem decode_encode_roundtrip_witness :
    (RadioPacket.ack_pkt ⟨1234, false, 999999⟩ 5678).WF ∧
    RadioPacket.ack_pkt ⟨1234, false, 999999⟩ 5678 ≠ RadioPacket.unset ∧
    decode_packet (encode_packet (.ack_pkt ⟨1234, false, 999999⟩ 5678)) =
      some (.ack_pkt ⟨1234, false, 999999⟩ 5678) :=
  ⟨by decide, by decide,
    decode_encode_roundtrip (.ack_pkt ⟨1234, false, 999999⟩ 5678)
      (by decide) (by decide)⟩

/-- C2: a decoded incoming non-Ack message whose header requests an ack
causes exactly one Ack (ack_id = the message's packet_id, need_ack
false, fresh id, current timestamp) to be enqueued, and the enqueue
event precedes the user-dispatch event. -/
theorem ack_enqueued_before_dispatch (s : ManagerState) (now_us : Nat)
    (now_q : Int) (pkt : RadioPacket) (b : BasePacket)
    (hna : isAck pkt = false) (hb : _get_base pkt = .ok b)
    (hneed : b.need_ack = true) :
    ∃ s2 pid, _handle_incoming_packet s now_us now_q pkt =
      .ok (s2, [ManagerEvent.enqueued 1
                  (.ack_pkt ⟨pid, false, now_us⟩ b.packet_id),
                ManagerEvent.dispatched pkt]) := by
  refine ⟨{ s with
      next_packet_id := (generate_packet_id s.next_packet_id).2,
      send_queue := s.send_queue ++ [(1, now_q,
        RadioPacket.ack_pkt
          ⟨(generate_packet_id s.next_packet_id).1, false, now_us⟩
          b.packet_id)] },
    (generate_packet_id s.next_packet_id).1, ?_⟩
  cases pkt with
  | ack_pkt b0 a0 => simp [isAck] at hna
  | unset => simp [_get_base] at hb
  | syn_rqt b0 =>
      simp only [_get_base, Except.ok.injEq] at hb
      subst hb
      simp [_handle_incoming_packet, isAck, _get_base, hneed, _send_ack,
        ManagerState.genId, enqueue_packet, generate_packet_id, bind, Except.bind]
  | syn_rsp b0 s0 =>
      simp only [_get_base, Except.ok.injEq] at hb
      subst hb
      simp [_handle_incoming_packet, isAck, _get_base, hneed, _send_ack,
        ManagerState.genId, enqueue_packet, generate_packet_id, bind, Except.bind]
  | cfg_rqt b0 c0 =>
      simp only [_get_base, Except.ok.injEq] at hb
      subst hb
      simp [_handle_incoming_packet, isAck, _get_base, hneed, _send_ack,
        ManagerState.genId, enqueue_packet, generate_packet_id, bind, Except.bind]
  | cfg_rsp b0 s0 =>
      simp only [_get_base, Except.ok.injEq] at hb
      subst hb
      simp [_handle_incoming_packet, isAck, _get_base, hneed, _send_ack,
        ManagerState.genId, enqueue_packet, generate_packet_id, bind, Except.bind]
  | gps_pkt b0 g0 =>
      simp only [_get_base, Except.ok.injEq] at hb
      subst hb
      simp [_handle_incoming_packet, isAck, _get_base, hneed, _send_ack,
        ManagerState.genId, enqueue_packet, generate_packet_id, bind, Except.bind]
  | ping_pkt b0 p0 =>
      simp only [_get_base, Except.ok.injEq] at hb
      subst hb
      simp [_handle_incoming_packet, isAck, _get_base, hneed, _send_ack,
        ManagerState.genId, enqueue_packet, generate_packet_id, bind, Except.bind]
  | loc_pkt b0 l0 =>
      simp only [_get_base, Except.ok.injEq] at hb
      subst hb
      simp [_handle_incoming_packet, isAck, _get_base, hneed, _send_ack,
        ManagerState.genId, enqueue_packet, generate_packet_id, bind, Except.bind]
  | str_rqt b0 =>
      simp only [_get_base, Except.ok.injEq] at hb
      subst hb
      simp [_handle_incoming_packet, isAck, _get_base, hneed, _send_ack,
        ManagerState.genId, enqueue_packet, generate_packet_id, bind, Except.bind]
  | str_rsp b0 s0 =>
      simp only [_get_base, Except.ok.injEq] at hb
      subst hb
      simp [_handle_incoming_packet, isAck, _get_base, hneed, _send_ack,
        ManagerState.genId, enqueue_packet, generate_packet_id, bind, Except.bind]
  | stp_rqt b0 =>
      simp only [_get_base, Except.ok.injEq] at hb
      subst hb
      simp [_handle_incoming_packet, isAck, _get_base, hneed, _send_ack,
        ManagerState.genId, enqueue_packet, generate_packet_id, bind, Except.bind]
  | stp_rsp b0 s0 =>
      simp only [_get_base, Except.ok.injEq] at hb
      subst hb
      simp [_handle_incoming_packet, isAck, _get_base, hneed, _send_ack,
        ManagerState.genId, enqueue_packet, generate_packet_id, bind, Except.bind]
  | err_pkt b0 =>
      simp only [_get_base, Except.ok.injEq] at hb
      subst hb
      simp [_handle_incoming_packet, isAck, _get_base, hneed, _send_ack,
        ManagerState.genId, enqueue_packet, generate_packet_id, bind, Except.bind]

/-- Witness for C2: a SyncRequest with need_ack, handled from a fresh
manager state. -/
theorem ack_enqueued_before_dispatch_witness :
    isAck (RadioPacket.syn_rqt ⟨42, true, 7⟩) = false ∧
    _get_base (RadioPacket.syn_rqt ⟨42, true, 7⟩) =
      .ok (⟨42, true, 7⟩ : BasePacket) ∧
    (⟨42, true, 7⟩ : BasePacket).need_ack = true ∧
    ∃ s2 pid, _handle_incoming_packet ⟨1, [], []⟩ 5 3
        (RadioPacket.syn_rqt ⟨42, true, 7⟩) =
      .ok (s2, [ManagerEvent.enqueued 1 (.ack_pkt ⟨pid, false, 5⟩ 42),
                ManagerEvent.dispatched (RadioPacket.syn_rqt ⟨42, true, 7⟩)]) :=
  ⟨rfl, rfl, rfl,
    ack_enqueued_before_dispatch ⟨1, [], []⟩ 5 3
      (RadioPacket.syn_rqt ⟨42, true, 7⟩) ⟨42, true, 7⟩ rfl rfl rfl⟩

/-- C3: for an ack-requiring message entered fresh into the outstanding
table, every run of retry sweeps retransmits at most max_retries times
(so at most max_retries + 1 transmissions counting the initial send),
every retransmission resends the original message, the timeout observer
fires at most once — with the original message, the entry then being
removed — and a sweep reaching an entry whose retries already equal
max_retries after another full timeout removes it and fires the
observer exactly once. -/
theorem retry_transmissions_bounded (cfg : RetryConfig) (pid : Nat)
    (pkt : RadioPacket) (t0 : Int) (times : List Int) :
    1 + (runSweeps cfg [(pid, ⟨pkt, t0, 0⟩)] times).2.1.length ≤
      cfg.max_retries + 1 ∧
    (∀ x ∈ (runSweeps cfg [(pid, ⟨pkt, t0, 0⟩)] times).2.1, x = pkt) ∧
    ((runSweeps cfg [(pid, ⟨pkt, t0, 0⟩)] times).2.2 = [] ∨
      ((runSweeps cfg [(pid, ⟨pkt, t0, 0⟩)] times).2.2 = [pkt] ∧
        (runSweeps cfg [(pid, ⟨pkt, t0, 0⟩)] times).1 = [])) ∧
    (∀ t1 : Int, _retry_outstanding_packets cfg (t1 + cfg.ack_timeout)
        [(pid, ⟨pkt, t1, cfg.max_retries⟩)] = ([], [], [pkt])) := by
  obtain ⟨h1, h2, h3⟩ :=
    runSweeps_single cfg pid pkt times t0 0 (Nat.zero_le _)
  refine ⟨by omega, h2, h3, ?_⟩
  intro t1
  have hcond : cfg.ack_timeout ≤ t1 + cfg.ack_timeout - t1 := by omega
  simp [_retry_outstanding_packets, sweepEntry, hcond]

/-- C4: decode_packet rejects exactly when one of the five checks fails:
too short, wrong sync marker, total length differing from 2+4+L+2 for
the big-endian length field L, checksum mismatch over the first 2+4+L
bytes against the trailing two bytes, or schema-parse failure of the
body. -/
theorem decode_packet_rejects_iff (data : List Nat) :
    decode_packet data = none ↔
      (data.length < 8 ∨
       data.take 2 ≠ SYNC_MARKER ∨
       data.length ≠ 2 + 4 + lengthField data + 2 ∨
       _calculate_crc16_ccitt (data.take (2 + 4 + lengthField data)) ≠
         ofBytesBE ((data.drop (2 + 4 + lengthField data)).take 2) ∨
       parseFromString ((data.drop (2 + 4)).take (lengthField data)) =
         .error ()) := by
  have e1 : SYNC_MARKER_LENGTH = 2 := rfl
  have e2 : LENGTH_FIELD_SIZE = 4 := rfl
  have e3 : CHECKSUM_SIZE = 2 := rfl
  rw [decode_packet]
  simp only [e1, e2, e3]
  split_ifs with h1 h2 h3
  · obtain ⟨hlen, hsync⟩ := h1
    cases hp : parseFromString ((data.drop (2 + 4)).take (lengthField data)) with
    | ok p =>
        simp only [hp]
        constructor
        · intro hco; exact absurd hco (by simp)
        · rintro (h | h | h | h | h)
          · exact absurd hlen (by omega)
          · exact absurd hsync h
          · exact absurd h2 h
          · exact absurd h3 h
          · exact absurd h (by simp)
    | error u =>
        cases u
        simp [hp]
  · exact iff_of_true rfl (Or.inr (Or.inr (Or.inr (Or.inl h3))))
  · exact iff_of_true rfl (Or.inr (Or.inr (Or.inl h2)))
  · rw [not_and_or] at h1
    rcases h1 with h | h
    · exact iff_of_true rfl (Or.inl (by omega))
    · exact iff_of_true rfl (Or.inr (Or.inl h))

/-- C5: the id generator never returns 0 — every id is in
[1, 0x7FFFFFFF]; from any reachable counter the next call returns the
successor until the counter passes 0x7FFFFFFF, after which the first id
handed out is 1 (the pre-increment value is returned). -/
theorem generate_packet_id_spec (c pid c2 : Nat)
    (hreach : 1 ≤ c ∧ c ≤ MAX_PACKET_ID + 1)
    (hgen : generate_packet_id c = (pid, c2)) :
    1 ≤ pid ∧ pid ≤ MAX_PACKET_ID ∧
    1 ≤ c2 ∧ c2 ≤ MAX_PACKET_ID + 1 ∧
    (pid < MAX_PACKET_ID → (generate_packet_id c2).1 = pid + 1) ∧
    (pid = MAX_PACKET_ID → (generate_packet_id c2).1 = 1) := by
  have hM : MAX_PACKET_ID = 2147483647 := rfl
  obtain ⟨hlo, hhi⟩ := hreach
  rw [hM] at hhi
  rw [hM]
  simp only [generate_packet_id, hM] at hgen
  by_cases hwrap : c > 2147483647
  · simp only [hwrap, if_pos, Prod.mk.injEq] at hgen
    obtain ⟨rfl, rfl⟩ := hgen
    decide
  · simp only [hwrap, if_false, Prod.mk.injEq] at hgen
    obtain ⟨rfl, rfl⟩ := hgen
    refine ⟨hlo, by omega, by omega, by omega, ?_, ?_⟩
    · intro hlt
      have hnw : ¬(c + 1 > 2147483647) := by omega
      simp [generate_packet_id, MAX_PACKET_ID, hnw]
    · intro heq
      subst heq
      decide

/-- Witness for C5 at counter value 5. -/
theorem generate_packet_id_spec_witness :
    (1 ≤ 5 ∧ 5 ≤ MAX_PACKET_ID + 1) ∧
    generate_packet_id 5 = (5, 6) ∧
    (1 ≤ 5 ∧ 5 ≤ MAX_PACKET_ID ∧
     1 ≤ 6 ∧ 6 ≤ MAX_PACKET_ID + 1 ∧
     (5 < MAX_PACKET_ID → (generate_packet_id 6).1 = 5 + 1) ∧
     (5 = MAX_PACKET_ID → (generate_packet_id 6).1 = 1)) :=
  ⟨⟨by decide, by decide⟩, by decide,
    generate_packet_id_spec 5 5 6 ⟨by decide, by decide⟩ (by decide)⟩

set_option maxRecDepth 10000 in
/-- C6: the checksum function computes CRC-16/CCITT-FALSE exactly as the
spec words the algorithm, and on the ASCII bytes of "123456789" it
returns 0x29B1. -/
theorem crc16_matches_spec_and_check_value :
    (∀ data : List Nat, _calculate_crc16_ccitt data = crc16_ccitt_false_spec data) ∧
    _calculate_crc16_ccitt
      [0x31, 0x32, 0x33, 0x34, 0x35, 0x36, 0x37, 0x38, 0x39] = 0x29B1 :=
  ⟨crc_code_eq_spec, by decide⟩

/-- C7 (amended): when an observer raises during dispatch, the exception
propagates out of `_invoke_handlers`; the observers before it (and the
raiser) were invoked, the observers after it are NOT invoked in that
pass, and no once-removal happens (the handler list is left as it was). -/
theorem observer_exception_propagates {α : Type}
    (behav : Nat → α → Except Unit Unit) (data : α)
    (l₁ l₂ : List (Nat × Bool)) (cb : Nat) (fl : Bool)
    (hok : ∀ c ∈ l₁.map Prod.fst, behav c data = .ok ())
    (herr : behav cb data = .error ()) :
    _invoke_handlers behav (l₁ ++ (cb, fl) :: l₂) data =
      (l₁.map Prod.fst ++ [cb], .error ()) :=
  invoke_handlers_err behav data l₁ l₂ cb fl hok herr

/-- Counterexample to C7 as stated: with observer 0 raising and observer
1 registered after it, the pass invokes only observer 0 — the exception
is not caught and observer 1 is not invoked. -/
theorem observer_exception_cex :
    (_invoke_handlers raisingObserver [(0, false), (1, false)] ()).1 = [0] ∧
    1 ∉ (_invoke_handlers raisingObserver [(0, false), (1, false)] ()).1 ∧
    (_invoke_handlers raisingObserver [(0, false), (1, false)] ()).2 =
      .error () :=
  ⟨rfl, by decide, rfl⟩

/-- Witness for C7 (amended): observer 5 succeeds, observer 0 raises,
observer 7 after it is not invoked. -/
theorem observer_exception_propagates_witness :
    (∀ c ∈ [(5, false)].map Prod.fst, raisingObserver c () = .ok ()) ∧
    raisingObserver 0 () = .error () ∧
    _invoke_handlers raisingObserver
        ([(5, false)] ++ (0, true) :: [(7, false)]) () =
      ([(5, false)].map Prod.fst ++ [0], .error ()) :=
  ⟨by simp [raisingObserver], rfl,
    observer_exception_propagates raisingObserver () [(5, false)] [(7, false)]
      0 true (by simp [raisingObserver]) rfl⟩

set_option maxRecDepth 10000 in
/-- C8 (code behaviour at the failing input): the empty-body frame
AA 55 00 00 00 00 5F 5F decodes to the all-unset message, and the
inbound handler raises ValueError on it instead of logging and dropping
— `_get_base` is reached before the dispatch layer's unknown-type
branch. -/
theorem unknown_variant_value_error :
    decode_packet [0xAA, 0x55, 0, 0, 0, 0, 0x5F, 0x5F] =
      some RadioPacket.unset ∧
    ∀ (s : ManagerState) (now_us : Nat) (now_q : Int),
      _handle_incoming_packet s now_us now_q RadioPacket.unset =
        .error "Unknown packet type in RadioPacket." :=
  ⟨by decide, fun s now_us now_q => rfl⟩

/-- C9: with no observer raising, an observer registered with
once = true is invoked exactly once across any sequence of delivery
passes, and observers registered with once = false are invoked in every
pass (they are never removed by dispatch). -/
theorem once_observer_invoked_exactly_once {α : Type}
    (behav : Nat → α → Except Unit Unit) (l : List (Nat × Bool))
    (d : α) (ds : List α)
    (hok : ∀ cb a, behav cb a = .ok ())
    (o : Nat) (honce : (o, true) ∈ l)
    (huniq : (l.map Prod.fst).count o = 1) :
    (((runPasses behav l (d :: ds)).1.map (fun inv => inv.count o)).sum = 1) ∧
    (∀ q, (q, false) ∈ l →
      ∀ inv ∈ (runPasses behav l (d :: ds)).1, q ∈ inv) := by
  have hpass := invoke_handlers_ok behav l d (fun cb _ => hok cb d)
  have hstable : ∀ e ∈ l.filter (fun h => !h.2), e.2 = false := by
    intro e he
    have := List.mem_filter.mp he
    simpa using this.2
  have hrest := runPasses_stable behav (l.filter (fun h => !h.2)) hstable hok ds
  have hrun : runPasses behav l (d :: ds) =
      ((l.map Prod.fst) ::
        ds.map (fun _ => (l.filter (fun h => !h.2)).map Prod.fst),
       l.filter (fun h => !h.2)) := by
    simp only [runPasses, hpass, hrest]
  have hno : o ∉ (l.filter (fun h => !h.2)).map Prod.fst := by
    intro hmem
    obtain ⟨⟨o2, fl⟩, hmem2, heq⟩ := List.mem_map.mp hmem
    simp only at heq
    subst heq
    have hfl : fl = false := hstable _ hmem2
    subst hfl
    have hinl : (o2, false) ∈ l := (List.mem_filter.mp hmem2).1
    have := count_two_mem honce hinl
    omega
  constructor
  · rw [hrun]
    simp only [List.map_cons, List.sum_cons, List.map_map]
    rw [huniq]
    have hcnt : ((l.filter (fun h => !h.2)).map Prod.fst).count o = 0 :=
      List.count_eq_zero.mpr hno
    have hconst : ((fun inv => List.count o inv) ∘
        fun _ : α => (l.filter (fun h => !h.2)).map Prod.fst) =
        fun _ : α => (0 : Nat) := by
      funext x
      simpa using hcnt
    rw [hconst, sum_map_zero]
  · intro q hq inv hinv
    rw [hrun] at hinv
    rcases List.mem_cons.mp hinv with rfl | hinv
    · exact List.mem_map.mpr ⟨(q, false), hq, rfl⟩
    · obtain ⟨x, hx, rfl⟩ := List.mem_map.mp hinv
      exact List.mem_map.mpr ⟨(q, false), List.mem_filter.mpr ⟨hq, by simp⟩, rfl⟩

/-- Witness for C9: once-observer 3 and persistent observer 4, three
deliveries. -/
theorem once_observer_invoked_exactly_once_witness :
    (∀ (cb : Nat) (a : Unit), okObserver cb a = .ok ()) ∧
    (3, true) ∈ [(3, true), (4, false)] ∧
    (([(3, true), (4, false)].map Prod.fst).count 3 = 1) ∧
    ((((runPasses okObserver [(3, true), (4, false)] [(), (), ()]).1.map
        (fun inv => inv.count 3)).sum = 1) ∧
     (∀ q, (q, false) ∈ [(3, true), (4, false)] →
       ∀ inv ∈ (runPasses okObserver [(3, true), (4, false)] [(), (), ()]).1,
         q ∈ inv)) :=
  ⟨fun _ _ => rfl, by decide, by decide,
    once_observer_invoked_exactly_once okObserver [(3, true), (4, false)]
      () [(), ()] (fun _ _ => rfl) 3 (by decide) (by decide)⟩

/-- C10: decode_packet is total — on every byte string it returns either
the rejection outcome or a decoded message, and it returns a message
only when the schema parse of the body slice succeeded (a parse failure
is caught and mapped to the rejection outcome). -/
theorem decode_packet_total (data : List Nat) :
    decode_packet data = none ∨
      ∃ p, decode_packet data = some p ∧
        parseFromString ((data.drop (2 + 4)).take (lengthField data)) =
          .ok p := by
  have e1 : SYNC_MARKER_LENGTH = 2 := rfl
  have e2 : LENGTH_FIELD_SIZE = 4 := rfl
  have e3 : CHECKSUM_SIZE = 2 := rfl
  rcases hd : decode_packet data with _ | p
  · exact Or.inl rfl
  · right
    refine ⟨p, rfl, ?_⟩
    rw [decode_packet] at hd
    simp only [e1, e2, e3] at hd
    split_ifs at hd with h1 h2 h3
    · cases hp : parseFromString ((data.drop (2 + 4)).take (lengthField data)) with
      | ok q =>
          simp only [hp, Option.some.injEq] at hd
          rw [hd]
      | error u =>
          exact absurd hd (by simp [hp])

end DroneCommsPkg
